import Mathlib

/-
  Verification development for the ZoneWise Lobster rate-limiting and
  admission-control core (scripts/global_rate_limiter.py) and the audit
  event checksum (scripts/security_utils.py).

  Modelling conventions:
  * Python `float` values (token counts, timestamps in seconds) are modelled
    as `Rat`; the arithmetic used by the source (add, sub, mul, min, compare)
    is exact on the inputs the claims quantify over.
  * Python dicts are modelled as association lists (`List (String × α)`)
    with insertion-order semantics: assignment overwrites in place or
    appends, matching CPython dict behaviour.
  * Wall-clock reads (`time.time()` / `datetime.now(timezone.utc)`) inside
    one call are modelled by a single `now : Rat` parameter per call.
  * `acquire` takes the already-extracted domain; URL parsing
    (`urllib.parse.urlparse` in `_get_domain`) is Python stdlib and outside
    the embedding.  All claims are stated per-domain.
-/

namespace ZonewiseLobster

/-- Association-list lookup, modelling Python dict access by key. -/
def lookupS {α : Type} : List (String × α) → String → Option α
  | [], _ => none
  | (k, v) :: rest, d => if k = d then some v else lookupS rest d

/-- Association-list insert-or-overwrite, modelling Python dict assignment
(`m[k] = v`): an existing key keeps its position, a new key is appended. -/
def insertS {α : Type} : List (String × α) → String → α → List (String × α)
  | [], d, v => [(d, v)]
  | (k, w) :: rest, d, v =>
    if k = d then (k, v) :: rest else (k, w) :: insertS rest d v

/-- Association-list removal, modelling Python `del m[k]`. -/
def eraseS {α : Type} : List (String × α) → String → List (String × α)
  | [], _ => []
  | (k, w) :: rest, d => if k = d then rest else (k, w) :: eraseS rest d

/-- Boolean test that the first character list starts with the second. -/
def startsWithL : List Char → List Char → Bool
  | _, [] => true
  | [], _ :: _ => false
  | a :: s, b :: p => a == b && startsWithL s p

/-- Boolean substring test: does `s` contain `pat` as a contiguous infix. -/
def containsL : List Char → List Char → Bool
  | [], pat => pat.isEmpty
  | a :: s, pat => startsWithL (a :: s) pat || containsL s pat

/-- Python `sub in s` on strings (contiguous substring containment). -/
def strContains (s pat : String) : Bool := containsL s.data pat.data

/-- Python `s.endswith(suffix)`. -/
def endsWithS (s suffix : String) : Bool :=
  startsWithL s.data.reverse suffix.data.reverse

/-- Python `int()` applied to a nonnegative-or-negative rational: truncation
toward zero. -/
def ratToInt (q : Rat) : Int := if q < 0 then -(-q).floor else q.floor

/-- Mirrors `RateLimitConfig` (global_rate_limiter.py lines 37-55). -/
structure RateLimitConfig where
  domain : String
  requests_per_minute : Nat
  requests_per_hour : Nat
  requests_per_day : Nat
  burst_limit : Nat
  cooldown_seconds : Nat
deriving DecidableEq, Repr

/-- Mirrors `TokenBucket` state (global_rate_limiter.py lines 58-84):
`tokens` and `last_refill` are Python floats, modelled as `Rat`. -/
structure TokenBucket where
  capacity : Nat
  refill_rate : Rat
  tokens : Rat
  last_refill : Rat
deriving DecidableEq, Repr

/-- Mirrors `TokenBucket.__init__` (lines 72-84): a bucket starts full, with
`last_refill` set to the creation-time clock reading. -/
def TokenBucket.init (capacity : Nat) (refill_rate : Rat) (now : Rat) : TokenBucket :=
  { capacity := capacity, refill_rate := refill_rate,
    tokens := (capacity : Rat), last_refill := now }

/-- Python `min` on two rationals (returns the first argument on ties, as
CPython does; on rationals this cannot be observed). -/
def ratMin (a b : Rat) : Rat := if a ≤ b then a else b

/-- Mirrors `TokenBucket._refill` (lines 107-118): add `elapsed * refill_rate`
tokens, capped at capacity, and advance `last_refill`. -/
def TokenBucket.refill (b : TokenBucket) (now : Rat) : TokenBucket :=
  let elapsed := now - b.last_refill
  let tokens_to_add := elapsed * b.refill_rate
  { b with tokens := ratMin (b.capacity : Rat) (b.tokens + tokens_to_add),
           last_refill := now }

/-- Mirrors `TokenBucket.consume` (lines 86-105): refill, then consume `n`
tokens if available.  Returns the decision and the mutated bucket (the
refill persists even when consumption fails). -/
def TokenBucket.consume (b : TokenBucket) (now : Rat) (n : Nat) : Bool × TokenBucket :=
  let b1 := b.refill now
  if (n : Rat) ≤ b1.tokens then (true, { b1 with tokens := b1.tokens - (n : Rat) })
  else (false, b1)

/-- Mirrors the `TokenBucket.available_tokens` property (lines 120-130):
refill then read; the refill mutates the bucket. -/
def TokenBucket.available_tokens (b : TokenBucket) (now : Rat) : Rat × TokenBucket :=
  let b1 := b.refill now
  (b1.tokens, b1)

/-- Mirrors one per-domain entry of `GlobalRateLimiter._request_counts`
(lines 239-248). -/
structure Counts where
  minute : Nat
  hour : Nat
  day : Nat
  last_reset_minute : Rat
  last_reset_hour : Rat
  last_reset_day : Rat
deriving DecidableEq, Repr

/-- The defaultdict entry created on first access (lines 240-247): zero
counts, all reset timestamps at the current clock reading. -/
def Counts.fresh (now : Rat) : Counts :=
  { minute := 0, hour := 0, day := 0,
    last_reset_minute := now, last_reset_hour := now, last_reset_day := now }

/-- The lazy window resets inside `_update_counts` (lines 370-383): each of
the three counters is zeroed and its window restarted when its window
duration has elapsed. -/
def Counts.lazyReset (c : Counts) (now : Rat) : Counts :=
  let c1 := if 60 ≤ now - c.last_reset_minute then
      { c with minute := 0, last_reset_minute := now } else c
  let c2 := if 3600 ≤ now - c1.last_reset_hour then
      { c1 with hour := 0, last_reset_hour := now } else c1
  if 86400 ≤ now - c2.last_reset_day then
      { c2 with day := 0, last_reset_day := now } else c2

/-- The increment applied on full admission success (lines 442-445). -/
def Counts.inc (c : Counts) : Counts :=
  { c with minute := c.minute + 1, hour := c.hour + 1, day := c.day + 1 }

/-- Mirrors `GlobalRateLimiter.DEFAULT_LIMITS` (lines 181-222), in dict
insertion order. -/
def DEFAULT_LIMITS : List (String × RateLimitConfig) :=
  [ ("municode.com",
     { domain := "municode.com", requests_per_minute := 30,
       requests_per_hour := 500, requests_per_day := 5000,
       burst_limit := 10, cooldown_seconds := 60 }),
    ("supabase.co",
     { domain := "supabase.co", requests_per_minute := 100,
       requests_per_hour := 3000, requests_per_day := 50000,
       burst_limit := 50, cooldown_seconds := 30 }),
    ("gis.brevardfl.gov",
     { domain := "gis.brevardfl.gov", requests_per_minute := 20,
       requests_per_hour := 300, requests_per_day := 3000,
       burst_limit := 5, cooldown_seconds := 120 }),
    ("bcpao.us",
     { domain := "bcpao.us", requests_per_minute := 15,
       requests_per_hour := 200, requests_per_day := 2000,
       burst_limit := 5, cooldown_seconds := 120 }),
    ("*",
     { domain := "*", requests_per_minute := 60,
       requests_per_hour := 1000, requests_per_day := 10000,
       burst_limit := 20, cooldown_seconds := 60 }) ]

/-- The wildcard fallback entry of the registry. -/
def starConfig : RateLimitConfig :=
  { domain := "*", requests_per_minute := 60, requests_per_hour := 1000,
    requests_per_day := 10000, burst_limit := 20, cooldown_seconds := 60 }

/-- The `municode.com` registry entry. -/
def municodeConfig : RateLimitConfig :=
  { domain := "municode.com", requests_per_minute := 30,
    requests_per_hour := 500, requests_per_day := 5000,
    burst_limit := 10, cooldown_seconds := 60 }

/-- The suffix-match loop of `_get_config` (lines 296-298): first registry
entry whose key is not the wildcard and is a suffix of `domain`. -/
def findSuffixMatch : List (String × RateLimitConfig) → String → Option RateLimitConfig
  | [], _ => none
  | (k, c) :: rest, d =>
    if k ≠ "*" ∧ endsWithS d k = true then some c else findSuffixMatch rest d

/-- Mirrors `GlobalRateLimiter._get_config` (lines 276-301) over an arbitrary
registry: exact match, then suffix match, then the wildcard entry. -/
def getConfigIn (registry : List (String × RateLimitConfig)) (domain : String) :
    Option RateLimitConfig :=
  match lookupS registry domain with
  | some c => some c
  | none =>
    match findSuffixMatch registry domain with
    | some c => some c
    | none => lookupS registry "*"

/-- `_get_config` over the shipped `DEFAULT_LIMITS` registry.  The wildcard
entry is present, so the lookup is total (`getConfigIn_DEFAULT_total`). -/
def getConfig (domain : String) : RateLimitConfig :=
  (getConfigIn DEFAULT_LIMITS domain).getD starConfig

/-- Mirrors the whole per-process mutable state of `GlobalRateLimiter`
(lines 238-249): `_buckets`, `_request_counts`, `_cooldowns`. -/
structure LimiterState where
  buckets : List (String × TokenBucket)
  request_counts : List (String × Counts)
  cooldowns : List (String × Rat)
deriving DecidableEq, Repr

/-- The state of a freshly constructed `GlobalRateLimiter`. -/
def initState : LimiterState :=
  { buckets := [], request_counts := [], cooldowns := [] }

/-- Mirrors `GlobalRateLimiter._check_cooldown` (lines 325-351): reports
whether the domain is in cooldown and the truncated seconds remaining, and
lazily deletes an expired entry.  `int(...total_seconds())` truncates toward
zero; in the active branch the difference is positive, so `floor` agrees. -/
def checkCooldown (cooldowns : List (String × Rat)) (domain : String) (now : Rat) :
    (Bool × Int) × List (String × Rat) :=
  match lookupS cooldowns domain with
  | none => ((false, 0), cooldowns)
  | some cooldown_end =>
    if now < cooldown_end then ((true, (cooldown_end - now).floor), cooldowns)
    else ((false, 0), eraseS cooldowns domain)

/-- Mirrors `GlobalRateLimiter._get_bucket` (lines 303-323): return the
domain's bucket, creating it on first sight with capacity `burst_limit` and
refill rate `requests_per_minute / 60`. -/
def getBucket (st : LimiterState) (domain : String) (now : Rat) :
    TokenBucket × LimiterState :=
  match lookupS st.buckets domain with
  | some b => (b, st)
  | none =>
    let config := getConfig domain
    let b := TokenBucket.init config.burst_limit
      ((config.requests_per_minute : Rat) / 60) now
    (b, { st with buckets := insertS st.buckets domain b })

/-- The post-lazy-reset counters an `acquire`-like call observes for a
domain: the stored entry, or a fresh defaultdict entry, with the lazy
window resets applied. -/
def currentCounts (st : LimiterState) (domain : String) (now : Rat) : Counts :=
  ((lookupS st.request_counts domain).getD (Counts.fresh now)).lazyReset now

/-- Mirrors `GlobalRateLimiter._update_counts` (lines 353-385): defaultdict
access (creating the entry on first sight), lazy resets, and the mutated
entry stored back. -/
def updateCounts (st : LimiterState) (domain : String) (now : Rat) :
    Counts × LimiterState :=
  let c := currentCounts st domain now
  (c, { st with request_counts := insertS st.request_counts domain c })

/-- Reason string of a cooldown denial (line 409). -/
def cooldownMsg (domain : String) (remaining : Int) : String :=
  "Domain " ++ domain ++ " in cooldown for " ++ toString remaining ++ "s"

/-- Reason string of a burst-limit denial (line 419). -/
def burstMsg (domain : String) (config : RateLimitConfig) : String :=
  "Burst limit exceeded for " ++ domain ++ ", cooldown "
    ++ toString config.cooldown_seconds ++ "s"

/-- Reason string of a minute-window denial (line 427). -/
def minuteMsg (config : RateLimitConfig) (domain : String) : String :=
  "Minute limit (" ++ toString config.requests_per_minute
    ++ "/min) exceeded for " ++ domain

/-- Reason string of an hour-window denial (line 432). -/
def hourMsg (config : RateLimitConfig) (domain : String) : String :=
  "Hour limit (" ++ toString config.requests_per_hour
    ++ "/hr) exceeded for " ++ domain

/-- Reason string of a day-window denial (line 437). -/
def dayMsg (config : RateLimitConfig) (domain : String) : String :=
  "Day limit (" ++ toString config.requests_per_day
    ++ "/day) exceeded for " ++ domain

/-- Mirrors `GlobalRateLimiter.acquire` (lines 387-450) for an
already-extracted domain: config resolution, the cooldown gate, the token
bucket, the three window checks in minute/hour/day order, increment on
success.  Returns the `(allowed, reason)` pair and the post-call state. -/
def acquire (st : LimiterState) (domain : String) (now : Rat) :
    (Bool × String) × LimiterState :=
  let config := getConfig domain
  let cd := checkCooldown st.cooldowns domain now
  let st1 : LimiterState := { st with cooldowns := cd.2 }
  if cd.1.1 then
    ((false, cooldownMsg domain cd.1.2), st1)
  else
    let gb := getBucket st1 domain now
    let cons := gb.1.consume now 1
    let st2 : LimiterState := { gb.2 with buckets := insertS gb.2.buckets domain cons.2 }
    if cons.1 = false then
      let st3 : LimiterState :=
        { st2 with cooldowns :=
            insertS st2.cooldowns domain (now + (config.cooldown_seconds : Rat)) }
      ((false, burstMsg domain config), st3)
    else
      let uc := updateCounts st2 domain now
      let counts := uc.1
      let st4 := uc.2
      if config.requests_per_minute ≤ counts.minute then
        ((false, minuteMsg config domain), st4)
      else if config.requests_per_hour ≤ counts.hour then
        ((false, hourMsg config domain), st4)
      else if config.requests_per_day ≤ counts.day then
        ((false, dayMsg config domain), st4)
      else
        ((true, "OK"),
         { st4 with request_counts := insertS st4.request_counts domain counts.inc })

/-- Mirrors `_persist_counts_async` (lines 487-517): the Supabase upsert
outcome is an `Except`; every exception is caught and logged, so the
function always returns successfully. -/
def persistCountsAsync (sink : Except String Unit) : Except String Unit :=
  match sink with
  | Except.ok _ => Except.ok ()
  | Except.error _ => Except.ok ()

/-- `acquire` with the persistence sink made explicit: on full admission
success the sink is invoked through `persistCountsAsync`; an uncaught sink
exception would surface as `Except.error`. -/
def acquireE (st : LimiterState) (domain : String) (now : Rat)
    (sink : Except String Unit) : Except String ((Bool × String) × LimiterState) :=
  let r := acquire st domain now
  if r.1.1 then
    match persistCountsAsync sink with
    | Except.ok _ => Except.ok r
    | Except.error e => Except.error e
  else Except.ok r

/-- One row of the `get_status` snapshot (lines 552-559). -/
structure DomainStatus where
  requests_minute : String
  requests_hour : String
  requests_day : String
  burst_available : Int
  in_cooldown : Bool
  cooldown_remaining : Int
deriving DecidableEq, Repr

/-- One iteration of the `get_status` loop body (lines 543-559) for one
domain: skip the wildcard, `_update_counts`, `_get_bucket`,
`_check_cooldown`, then read `available_tokens` (whose refill mutates the
stored bucket). -/
def statusStep (now : Rat) (acc : List (String × DomainStatus) × LimiterState)
    (domain : String) : List (String × DomainStatus) × LimiterState :=
  if domain = "*" then acc
  else
    let config := getConfig domain
    let uc := updateCounts acc.2 domain now
    let gb := getBucket uc.2 domain now
    let cd := checkCooldown gb.2.cooldowns domain now
    let av := gb.1.available_tokens now
    let st : LimiterState :=
      { gb.2 with cooldowns := cd.2,
                  buckets := insertS gb.2.buckets domain av.2 }
    let entry : DomainStatus :=
      { requests_minute :=
          toString uc.1.minute ++ "/" ++ toString config.requests_per_minute,
        requests_hour :=
          toString uc.1.hour ++ "/" ++ toString config.requests_per_hour,
        requests_day :=
          toString uc.1.day ++ "/" ++ toString config.requests_per_day,
        burst_available := ratToInt av.1,
        in_cooldown := cd.1.1,
        cooldown_remaining := cd.1.2 }
    (insertS acc.1 domain entry, st)

/-- The domain set iterated by `get_status` (line 541):
`set(_request_counts) | set(DEFAULT_LIMITS)`.  Python set iteration order is
unspecified; a deterministic order is fixed here, and every per-domain loop
body touches only that domain's entries. -/
def statusDomains (st : LimiterState) : List String :=
  (st.request_counts.map Prod.fst ++ DEFAULT_LIMITS.map Prod.fst).dedup

/-- Mirrors `GlobalRateLimiter.get_status` (lines 519-561). -/
def get_status (st : LimiterState) (now : Rat) :
    List (String × DomainStatus) × LimiterState :=
  (statusDomains st).foldl (statusStep now) ([], st)

/-
  SHA-256 (FIPS 180-4), used by `AuditEvent.__post_init__`
  (security_utils.py lines 187-191): `hashlib.sha256(content.encode())
  .hexdigest()[:16]`.  Implemented over `Nat` with explicit reduction
  modulo 2^32.
-/

/-- Reduce modulo 2^32. -/
def w32 (x : Nat) : Nat := x % 4294967296

/-- Right rotation of a 32-bit word. -/
def rotr32 (n x : Nat) : Nat := ((x >>> n) ||| (x <<< (32 - n))) % 4294967296

/-- Bitwise complement of a 32-bit word. -/
def not32 (x : Nat) : Nat := 4294967295 ^^^ x

/-- SHA-256 Ch function. -/
def shaCh (x y z : Nat) : Nat := (x &&& y) ^^^ (not32 x &&& z)

/-- SHA-256 Maj function. -/
def shaMaj (x y z : Nat) : Nat := (x &&& y) ^^^ (x &&& z) ^^^ (y &&& z)

/-- SHA-256 big Sigma0. -/
def bigSigma0 (x : Nat) : Nat := rotr32 2 x ^^^ rotr32 13 x ^^^ rotr32 22 x

/-- SHA-256 big Sigma1. -/
def bigSigma1 (x : Nat) : Nat := rotr32 6 x ^^^ rotr32 11 x ^^^ rotr32 25 x

/-- SHA-256 small sigma0. -/
def smallSigma0 (x : Nat) : Nat := rotr32 7 x ^^^ rotr32 18 x ^^^ (x >>> 3)

/-- SHA-256 small sigma1. -/
def smallSigma1 (x : Nat) : Nat := rotr32 17 x ^^^ rotr32 19 x ^^^ (x >>> 10)

/-- The 64 SHA-256 round constants of FIPS 180-4 (decimal). -/
def K256 : List Nat :=
  [1116352408, 1899447441, 3049323471, 3921009573,
   961987163, 1508970993, 2453635748, 2870763221,
   3624381080, 310598401, 607225278, 1426881987,
   1925078388, 2162078206, 2614888103, 3248222580,
   3835390401, 4022224774, 264347078, 604807628,
   770255983, 1249150122, 1555081692, 1996064986,
   2554220882, 2821834349, 2952996808, 3210313671,
   3336571891, 3584528711, 113926993, 338241895,
   666307205, 773529912, 1294757372, 1396182291,
   1695183700, 1986661051, 2177026350, 2456956037,
   2730485921, 2820302411, 3259730800, 3345764771,
   3516065817, 3600352804, 4094571909, 275423344,
   430227734, 506948616, 659060556, 883997877,
   958139571, 1322822218, 1537002063, 1747873779,
   1955562222, 2024104815, 2227730452, 2361852424,
   2428436474, 2756734187, 3204031479, 3329325298]

/-- The SHA-256 initial hash value of FIPS 180-4 (decimal). -/
def H256 : List Nat :=
  [1779033703, 3144134277, 1013904242, 2773480762,
   1359893119, 2600822924, 528734635, 1541459225]

/-- Big-endian byte serialization of a value into `numBytes` bytes. -/
def natToBE (numBytes v : Nat) : List Nat :=
  (List.range numBytes).map (fun i => (v >>> (8 * (numBytes - 1 - i))) % 256)

/-- SHA-256 message padding: append `0x80`, zero bytes to 56 mod 64, then
the bit length as an 8-byte big-endian value. -/
def padMessage (msg : List Nat) : List Nat :=
  let len := msg.length
  let zeros := (119 - len % 64) % 64
  msg ++ 0x80 :: List.replicate zeros 0 ++ natToBE 8 (8 * len)

/-- Split a byte list into 64-byte blocks (fuelled structural recursion;
the fuel `l.length` always suffices since each step drops 64 > 0 bytes). -/
def toBlocksAux : Nat → List Nat → List (List Nat)
  | 0, _ => []
  | Nat.succ fuel, l =>
    if l = [] then [] else l.take 64 :: toBlocksAux fuel (l.drop 64)

/-- Split a byte list into 64-byte blocks. -/
def toBlocks (l : List Nat) : List (List Nat) := toBlocksAux l.length l

/-- Parse a 64-byte block as 16 big-endian 32-bit words. -/
def blockWords : List Nat → List Nat
  | b0 :: b1 :: b2 :: b3 :: rest =>
    (((b0 * 256 + b1) * 256 + b2) * 256 + b3) :: blockWords rest
  | _ => []

/-- Extend the 16 message words to the 64-entry SHA-256 message schedule. -/
def buildSchedule (initW : List Nat) : List Nat :=
  (List.range 48).foldl
    (fun w i =>
      let t := 16 + i
      w ++ [w32 (smallSigma1 (w.getD (t - 2) 0) + w.getD (t - 7) 0
                  + smallSigma0 (w.getD (t - 15) 0) + w.getD (t - 16) 0)])
    initW

/-- One SHA-256 compression round on the 8-word working state. -/
def compressRound (st : List Nat) (kw : Nat × Nat) : List Nat :=
  match st with
  | [a, b, c, d, e, f, g, h] =>
    let t1 := w32 (h + bigSigma1 e + shaCh e f g + kw.1 + kw.2)
    let t2 := w32 (bigSigma0 a + shaMaj a b c)
    [w32 (t1 + t2), a, b, c, w32 (d + t1), e, f, g]
  | other => other

/-- Process one 64-byte block into the running hash value. -/
def processBlock (hs : List Nat) (block : List Nat) : List Nat :=
  let ws := buildSchedule (blockWords block)
  let st := (K256.zip ws).foldl compressRound hs
  (hs.zip st).map (fun p => w32 (p.1 + p.2))

/-- SHA-256 digest of a byte list, as 32 bytes. -/
def sha256Bytes (msg : List Nat) : List Nat :=
  ((toBlocks (padMessage msg)).foldl processBlock H256).map (natToBE 4) |>.flatten

/-- Lowercase hexadecimal digit. -/
def hexDigit (n : Nat) : Char :=
  if n < 10 then Char.ofNat (48 + n) else Char.ofNat (87 + n)

/-- Lowercase hexadecimal rendering of a byte list, as `hexdigest()`. -/
def bytesToHex (bs : List Nat) : String :=
  String.mk ((bs.map (fun b => [hexDigit (b / 16), hexDigit (b % 16)])).flatten)

/-- UTF-8 encoding of one scalar value, matching Python `str.encode()`. -/
def utf8Encode (c : Char) : List Nat :=
  let n := c.toNat
  if n < 128 then [n]
  else if n < 2048 then [192 + n / 64, 128 + n % 64]
  else if n < 65536 then [224 + n / 4096, 128 + (n / 64) % 64, 128 + n % 64]
  else [240 + n / 262144, 128 + (n / 4096) % 64, 128 + (n / 64) % 64, 128 + n % 64]

/-- UTF-8 bytes of a string. -/
def strBytes (s : String) : List Nat := (s.data.map utf8Encode).flatten

/-- Python `hashlib.sha256(s.encode()).hexdigest()`. -/
def sha256hex (s : String) : String := bytesToHex (sha256Bytes (strBytes s))

/-- Mirrors the `AuditEvent` dataclass fields (security_utils.py lines
173-185).  `details` is an opaque dict, modelled as a string association
list. -/
structure AuditEvent where
  event_id : String
  event_type : String
  timestamp : String
  workflow_id : String
  user_id : Option String
  action : String
  target : String
  status : String
  details : List (String × String)
  checksum : String
deriving DecidableEq, Repr

/-- The checksum input of `AuditEvent.__post_init__` (line 190): the six
fields joined with a pipe delimiter. -/
def auditContent (e : AuditEvent) : String :=
  e.event_id ++ "|" ++ e.event_type ++ "|" ++ e.timestamp ++ "|"
    ++ e.workflow_id ++ "|" ++ e.action ++ "|" ++ e.status

/-- Mirrors `AuditEvent.__post_init__` (lines 187-191): when no checksum is
already present, set it to the first 16 hex characters of the SHA-256 of the
checksum input; an existing checksum is kept untouched. -/
def AuditEvent.postInit (e : AuditEvent) : AuditEvent :=
  if e.checksum = "" then
    { e with checksum := (sha256hex (auditContent e)).take 16 }
  else e

/-- The `supabase.co` registry entry. -/
def supabaseConfig : RateLimitConfig :=
  { domain := "supabase.co", requests_per_minute := 100,
    requests_per_hour := 3000, requests_per_day := 50000,
    burst_limit := 50, cooldown_seconds := 30 }
/-- The `gis.brevardfl.gov` registry entry. -/
def gisConfig : RateLimitConfig :=
  { domain := "gis.brevardfl.gov", requests_per_minute := 20,
    requests_per_hour := 300, requests_per_day := 3000,
    burst_limit := 5, cooldown_seconds := 120 }
/-- The `bcpao.us` registry entry. -/
def bcpaoConfig : RateLimitConfig :=
  { domain := "bcpao.us", requests_per_minute := 15,
    requests_per_hour := 200, requests_per_day := 2000,
    burst_limit := 5, cooldown_seconds := 120 }
/-- The `0 ≤ tokens ≤ capacity` data-model invariant of `TokenBucket`. -/
def BucketInv (b : TokenBucket) : Prop :=
  0 ≤ b.tokens ∧ b.tokens ≤ (b.capacity : Rat)
/-- A state whose minute counter for domain `x` is already at the wildcard
ceiling, with no bucket and no cooldown. -/
def c4State : LimiterState :=
  { buckets := [],
    request_counts :=
      [("x", { minute := 60, hour := 60, day := 60, last_reset_minute := 0,
               last_reset_hour := 0, last_reset_day := 0 })],
    cooldowns := [] }
/-- A state whose bucket for domain `x` is empty at time zero. -/
def c2State : LimiterState :=
  { buckets :=
      [("x", { capacity := 20, refill_rate := 1, tokens := 0, last_refill := 0 })],
    request_counts := [], cooldowns := [] }
/-- The limiter state after `k` `acquire` calls for one domain, all at the
same clock reading (zero elapsed time between calls). -/
def stateAfter (st : LimiterState) (d : String) (now : Rat) : Nat → LimiterState
  | 0 => st
  | Nat.succ k => (acquire (stateAfter st d now k) d now).2
/-- The bucket of the exercised domain after `k` same-instant admissions
from a fresh domain. -/
def c1Bucket (d : String) (now : Rat) (k : Nat) : TokenBucket :=
  { capacity := (getConfig d).burst_limit,
    refill_rate := ((getConfig d).requests_per_minute : Rat) / 60,
    tokens := ((getConfig d).burst_limit : Rat) - (k : Rat),
    last_refill := now }
/-- The window counters of the exercised domain after `k` same-instant
admissions from a fresh domain. -/
def c1Counts (now : Rat) (k : Nat) : Counts :=
  { minute := k, hour := k, day := k,
    last_reset_minute := now, last_reset_hour := now, last_reset_day := now }
/-- The whole limiter state after `k` same-instant admissions from a fresh
domain. -/
def c1State (st : LimiterState) (d : String) (now : Rat) (k : Nat) : LimiterState :=
  { buckets := insertS st.buckets d (c1Bucket d now k),
    request_counts := insertS st.request_counts d (c1Counts now k),
    cooldowns := st.cooldowns }
/-- A state for `municode.com` with a full bucket and the minute counter at
its ceiling of 30. -/
def c3CexState : LimiterState :=
  { buckets :=
      [("municode.com",
        { capacity := 10, refill_rate := 1/2, tokens := 10, last_refill := 0 })],
    request_counts :=
      [("municode.com",
        { minute := 30, hour := 30, day := 30, last_reset_minute := 0,
          last_reset_hour := 0, last_reset_day := 0 })],
    cooldowns := [] }
/-- The bucket `_get_bucket` creates on first sight of a domain. -/
def freshBucket (d : String) (now : Rat) : TokenBucket :=
  TokenBucket.init (getConfig d).burst_limit
    (((getConfig d).requests_per_minute : Rat) / 60) now
/-- The exact state effect `get_status` is allowed to have (amended claim):
no cooldown entry is added (entries may only be lazily dropped), every
stored bucket is an original bucket (possibly refilled for elapsed time,
never otherwise changed) or a freshly created full bucket for a domain that
had none, and every counter entry is an original entry (possibly
lazily reset) or a fresh zero entry for a domain that had none. -/
def StatusFrame (st0 cur : LimiterState) (now : Rat) : Prop :=
  (∀ d u, lookupS cur.cooldowns d = some u → lookupS st0.cooldowns d = some u)
  ∧ (cur.cooldowns.map Prod.fst).Nodup
  ∧ (∀ d b, lookupS cur.buckets d = some b →
      (∃ b0, lookupS st0.buckets d = some b0 ∧ (b = b0 ∨ b = b0.refill now))
      ∨ (lookupS st0.buckets d = none ∧ b = freshBucket d now))
  ∧ (∀ d, lookupS cur.buckets d = none → lookupS st0.buckets d = none)
  ∧ (∀ d c, lookupS cur.request_counts d = some c →
      (∃ c0, lookupS st0.request_counts d = some c0 ∧ (c = c0 ∨ c = c0.lazyReset now))
      ∨ (lookupS st0.request_counts d = none ∧ c = Counts.fresh now))
  ∧ (∀ d, lookupS cur.request_counts d = none → lookupS st0.request_counts d = none)

/-
  Helper lemmas: association lists.
-/

theorem lookupS_insertS_self {α : Type} (l : List (String × α)) (d : String) (v : α) :
    lookupS (insertS l d v) d = some v := by
  induction l with
  | nil => simp [insertS, lookupS]
  | cons p rest ih =>
    obtain ⟨k, w⟩ := p
    by_cases h : k = d <;> simp [insertS, lookupS, h, ih]

theorem lookupS_insertS_ne {α : Type} (l : List (String × α)) (d e : String) (v : α)
    (h : e ≠ d) : lookupS (insertS l d v) e = lookupS l e := by
  induction l with
  | nil => simp [insertS, lookupS, Ne.symm h]
  | cons p rest ih =>
    obtain ⟨k, w⟩ := p
    by_cases hk : k = d
    · subst hk; simp [insertS, lookupS, Ne.symm h]
    · simp [insertS, lookupS, hk, ih]

theorem insertS_insertS {α : Type} (l : List (String × α)) (d : String) (v w : α) :
    insertS (insertS l d v) d w = insertS l d w := by
  induction l with
  | nil => simp [insertS]
  | cons p rest ih =>
    obtain ⟨k, u⟩ := p
    by_cases h : k = d <;> simp [insertS, h, ih]

theorem lookupS_eraseS_ne {α : Type} (l : List (String × α)) (d e : String)
    (h : e ≠ d) : lookupS (eraseS l d) e = lookupS l e := by
  induction l with
  | nil => simp [eraseS]
  | cons p rest ih =>
    obtain ⟨k, w⟩ := p
    by_cases hk : k = d
    · subst hk; simp [eraseS, lookupS, Ne.symm h]
    · simp [eraseS, lookupS, hk, ih]

theorem eraseS_sublist {α : Type} (l : List (String × α)) (d : String) :
    (eraseS l d).Sublist l := by
  induction l with
  | nil => simp [eraseS]
  | cons p rest ih =>
    obtain ⟨k, w⟩ := p
    by_cases hk : k = d
    · simp only [eraseS, if_pos hk]
      exact List.sublist_cons_self (k, w) rest
    · simpa [eraseS, hk] using List.Sublist.cons₂ (k, w) ih

theorem lookupS_mem {α : Type} (l : List (String × α)) (d : String) (v : α)
    (h : lookupS l d = some v) : (d, v) ∈ l := by
  induction l with
  | nil => simp [lookupS] at h
  | cons p rest ih =>
    obtain ⟨k, w⟩ := p
    by_cases hk : k = d
    · subst hk
      simp only [lookupS, if_pos rfl] at h
      rw [← Option.some.inj h]
      exact List.mem_cons_self _ _
    · simp only [lookupS, if_neg hk] at h
      exact List.mem_cons_of_mem _ (ih h)

theorem lookupS_eraseS_self {α : Type} (l : List (String × α)) (d : String)
    (hnd : (l.map Prod.fst).Nodup) : lookupS (eraseS l d) d = none := by
  induction l with
  | nil => simp [eraseS, lookupS]
  | cons p rest ih =>
    obtain ⟨k, w⟩ := p
    simp only [List.map_cons, List.nodup_cons] at hnd
    by_cases hk : k = d
    · subst hk
      simp only [eraseS, if_pos rfl]
      cases hrest : lookupS rest k with
      | none => exact hrest
      | some v => exact absurd (List.mem_map_of_mem Prod.fst (lookupS_mem rest k v hrest)) hnd.1
    · simp [eraseS, lookupS, hk, ih hnd.2]

/-
  Helper lemmas: substring containment.
-/

theorem startsWithL_refl_append (p s : List Char) : startsWithL (p ++ s) p = true := by
  induction p with
  | nil => simp [startsWithL]
  | cons c p ih => simp [startsWithL, ih]

theorem startsWithL_mono (s t p : List Char) (h : startsWithL s p = true) :
    startsWithL (s ++ t) p = true := by
  induction p generalizing s with
  | nil => simp [startsWithL]
  | cons c p ih =>
    cases s with
    | nil => simp [startsWithL] at h
    | cons a s =>
      simp only [startsWithL, Bool.and_eq_true, beq_iff_eq] at h
      simp [startsWithL, h.1, ih s h.2]

theorem containsL_nil_pat (t : List Char) : containsL t [] = true := by
  cases t <;> simp [containsL, startsWithL]

theorem containsL_append_left (a s p : List Char) (h : containsL s p = true) :
    containsL (a ++ s) p = true := by
  induction a with
  | nil => exact h
  | cons c a ih => simp [containsL, ih]

theorem containsL_append_right (s t p : List Char) (h : containsL s p = true) :
    containsL (s ++ t) p = true := by
  induction s with
  | nil =>
    simp only [containsL, List.isEmpty_iff] at h
    subst h
    simp only [List.nil_append]
    exact containsL_nil_pat t
  | cons c s ih =>
    simp only [containsL, Bool.or_eq_true] at h
    rcases h with h | h
    · have := startsWithL_mono (c :: s) t p h
      simp only [List.cons_append] at this ⊢
      simp [containsL, this]
    · simp only [List.cons_append]
      simp [containsL, ih h]

theorem strContains_append_right (x y pat : String) (h : strContains x pat = true) :
    strContains (x ++ y) pat = true := by
  simpa [strContains, String.data_append] using
    containsL_append_right x.data y.data pat.data h

theorem strContains_append_left (x y pat : String) (h : strContains y pat = true) :
    strContains (x ++ y) pat = true := by
  simpa [strContains, String.data_append] using
    containsL_append_left x.data y.data pat.data h

/-
  Helper lemmas: config resolution over the registry.
-/




theorem findSuffixMatch_some (l : List (String × RateLimitConfig)) (d : String)
    (c : RateLimitConfig) (h : findSuffixMatch l d = some c) :
    ∃ k, (k, c) ∈ l ∧ k ≠ "*" ∧ endsWithS d k = true := by
  induction l with
  | nil => simp [findSuffixMatch] at h
  | cons p rest ih =>
    obtain ⟨k, w⟩ := p
    by_cases hk : k ≠ "*" ∧ endsWithS d k = true
    · simp only [findSuffixMatch, if_pos hk, Option.some.injEq] at h
      exact ⟨k, by simp [← h], hk.1, hk.2⟩
    · simp only [findSuffixMatch, if_neg hk] at h
      obtain ⟨k', hm, hs, he⟩ := ih h
      exact ⟨k', List.mem_cons_of_mem _ hm, hs, he⟩

theorem findSuffixMatch_none (l : List (String × RateLimitConfig)) (d : String)
    (h : findSuffixMatch l d = none) :
    ∀ k c, (k, c) ∈ l → k ≠ "*" → endsWithS d k = false := by
  induction l with
  | nil => simp
  | cons p rest ih =>
    obtain ⟨k, w⟩ := p
    by_cases hk : k ≠ "*" ∧ endsWithS d k = true
    · simp [findSuffixMatch, if_pos hk] at h
    · simp only [findSuffixMatch, if_neg hk] at h
      intro k' c hm hs
      rcases List.mem_cons.mp hm with heq | hm'
      · have hk1 : k' = k := congrArg Prod.fst heq
        subst hk1
        cases hend : endsWithS d k' with
        | false => rfl
        | true => exact absurd ⟨hs, hend⟩ hk
      · exact ih h k' c hm' hs

theorem lookupS_DEFAULT_star : lookupS DEFAULT_LIMITS "*" = some starConfig := by
  decide

theorem getConfigIn_DEFAULT_total (d : String) :
    ∃ c, getConfigIn DEFAULT_LIMITS d = some c := by
  unfold getConfigIn
  cases h1 : lookupS DEFAULT_LIMITS d with
  | some c => exact ⟨c, rfl⟩
  | none =>
    cases h2 : findSuffixMatch DEFAULT_LIMITS d with
    | some c => exact ⟨c, rfl⟩
    | none => exact ⟨starConfig, lookupS_DEFAULT_star⟩

theorem getConfig_eq_getConfigIn (d : String) :
    getConfigIn DEFAULT_LIMITS d = some (getConfig d) := by
  obtain ⟨c, hc⟩ := getConfigIn_DEFAULT_total d
  simp [getConfig, hc]

theorem getConfig_mem_registry (d : String) :
    ∃ k, (k, getConfig d) ∈ DEFAULT_LIMITS := by
  have h := getConfig_eq_getConfigIn d
  unfold getConfigIn at h
  cases h1 : lookupS DEFAULT_LIMITS d with
  | some c =>
    simp only [h1] at h
    exact ⟨d, Option.some.inj h ▸ lookupS_mem _ _ _ h1⟩
  | none =>
    simp only [h1] at h
    cases h2 : findSuffixMatch DEFAULT_LIMITS d with
    | some c =>
      simp only [h2] at h
      obtain ⟨k, hm, _, _⟩ := findSuffixMatch_some _ _ _ h2
      exact ⟨k, Option.some.inj h ▸ hm⟩
    | none =>
      simp only [h2] at h
      exact ⟨"*", lookupS_mem _ _ _ h⟩

theorem getConfig_cases (d : String) :
    getConfig d = municodeConfig ∨ getConfig d = supabaseConfig ∨
    getConfig d = gisConfig ∨ getConfig d = bcpaoConfig ∨
    getConfig d = starConfig := by
  obtain ⟨k, hm⟩ := getConfig_mem_registry d
  simp only [DEFAULT_LIMITS, List.mem_cons, List.not_mem_nil, or_false,
    Prod.mk.injEq] at hm
  rcases hm with ⟨_, h⟩ | ⟨_, h⟩ | ⟨_, h⟩ | ⟨_, h⟩ | ⟨_, h⟩
  · exact Or.inl h
  · exact Or.inr (Or.inl h)
  · exact Or.inr (Or.inr (Or.inl h))
  · exact Or.inr (Or.inr (Or.inr (Or.inl h)))
  · exact Or.inr (Or.inr (Or.inr (Or.inr h)))

theorem getConfig_facts (d : String) :
    1 ≤ (getConfig d).burst_limit ∧
    (getConfig d).burst_limit ≤ (getConfig d).requests_per_minute ∧
    (getConfig d).burst_limit ≤ (getConfig d).requests_per_hour ∧
    (getConfig d).burst_limit ≤ (getConfig d).requests_per_day ∧
    1 ≤ (getConfig d).cooldown_seconds := by
  rcases getConfig_cases d with h | h | h | h | h <;> rw [h] <;> decide

/-
  Bucket invariant infrastructure (claim C8).
-/


theorem ratMin_eq_min (a b : Rat) : ratMin a b = min a b := (min_def a b).symm

theorem BucketInv_refill (b : TokenBucket) (now : Rat) (h : BucketInv b)
    (hr : 0 ≤ b.refill_rate) (hc : b.last_refill ≤ now) :
    BucketInv (b.refill now) := by
  obtain ⟨h0, h1⟩ := h
  unfold BucketInv
  simp only [TokenBucket.refill, ratMin_eq_min]
  constructor
  · exact le_min (Nat.cast_nonneg _)
      (add_nonneg h0 (mul_nonneg (sub_nonneg.mpr hc) hr))
  · exact min_le_left _ _

theorem refill_tokens_le (b : TokenBucket) (now : Rat) :
    (b.refill now).tokens ≤ (b.capacity : Rat) := by
  simp only [TokenBucket.refill, ratMin_eq_min]
  exact min_le_left _ _

/-- C8: for every bucket as constructed by the limiter (positive capacity,
nonnegative refill rate, as in `_get_bucket`), and nondecreasing clock
readings, the invariant `0 ≤ tokens ≤ capacity` holds after construction
and is preserved by `consume` and by `available_tokens`; the value reported
by `available_tokens` never exceeds the capacity. -/
theorem C8_bucket_invariant :
    (∀ (cap : Nat) (rate now : Rat), 0 < cap →
        BucketInv (TokenBucket.init cap rate now))
    ∧ (∀ (b : TokenBucket) (now : Rat) (n : Nat), BucketInv b →
        0 ≤ b.refill_rate → b.last_refill ≤ now →
        BucketInv (b.consume now n).2)
    ∧ (∀ (b : TokenBucket) (now : Rat), BucketInv b →
        0 ≤ b.refill_rate → b.last_refill ≤ now →
        BucketInv (b.available_tokens now).2
        ∧ (b.available_tokens now).1 ≤ (b.capacity : Rat)) := by
  refine ⟨?_, ?_, ?_⟩
  · intro cap rate now _
    exact ⟨Nat.cast_nonneg _, le_refl _⟩
  · intro b now n h hr hc
    have href := BucketInv_refill b now h hr hc
    unfold TokenBucket.consume
    by_cases hn : (n : Rat) ≤ (b.refill now).tokens
    · simp only [if_pos hn]
      exact ⟨sub_nonneg.mpr hn,
        le_trans (sub_le_self _ (Nat.cast_nonneg n)) href.2⟩
    · simp only [if_neg hn]
      exact href
  · intro b now h hr hc
    exact ⟨BucketInv_refill b now h hr hc, refill_tokens_le b now⟩

/-- Witness for C8 at a concrete bucket and clock reading. -/
theorem C8_bucket_invariant_witness :
    BucketInv ((TokenBucket.mk 10 (1/2) 3 0).consume 2 1).2 :=
  C8_bucket_invariant.2.1 (TokenBucket.mk 10 (1/2) 3 0) 2 1
    ⟨show (0:Rat) ≤ 3 by norm_num, show (3:Rat) ≤ (10:Nat) by norm_num⟩
    (show (0:Rat) ≤ 1/2 by norm_num) (show (0:Rat) ≤ 2 by norm_num)

/-
  Claim C6: sink independence.
-/

/-- C6: the admission decision is independent of the persistence sink: for
every state, domain and clock reading, `acquire` through the exception
channel always succeeds with the sink-free result, whether the upsert
outcome is success or any exception. -/
theorem C6_sink_independent (st : LimiterState) (domain : String) (now : Rat)
    (sink : Except String Unit) :
    acquireE st domain now sink = Except.ok (acquire st domain now) := by
  unfold acquireE persistCountsAsync
  cases sink <;> cases h : (acquire st domain now).1.1 <;> simp [h]

/-
  Claim C9: audit event checksum.
-/

/-- C9: an `AuditEvent` constructed without a pre-existing checksum gets the
first 16 hex characters of the SHA-256 of the pipe-joined six fields
`(event_id, event_type, timestamp, workflow_id, action, status)`; the
checksum is independent of `user_id`, `target` and `details`; a checksum
already present at construction is kept unchanged. -/
theorem C9_audit_checksum (eid et ts wid act stat : String)
    (uid : Option String) (tgt : String) (det : List (String × String))
    (c : String) (uid2 : Option String) (tgt2 : String)
    (det2 : List (String × String)) :
    ((AuditEvent.mk eid et ts wid uid act tgt stat det c).postInit.checksum
       = if c = "" then
           (sha256hex (eid ++ "|" ++ et ++ "|" ++ ts ++ "|" ++ wid ++ "|"
              ++ act ++ "|" ++ stat)).take 16
         else c)
    ∧ (AuditEvent.mk eid et ts wid uid act tgt stat det c).postInit.checksum
       = (AuditEvent.mk eid et ts wid uid2 act tgt2 stat det2 c).postInit.checksum := by
  constructor
  · by_cases h : c = "" <;> simp [AuditEvent.postInit, auditContent, h]
  · by_cases h : c = "" <;> simp [AuditEvent.postInit, auditContent, h]

/-
  Claim C5: config resolution is total and follows the stated priority.
-/

/-- C5: for every domain string, `_get_config` over the shipped registry
returns some config (never none); an exact registry match is returned as
such; failing that, a returned config comes from a non-wildcard suffix
match when one exists, and is the wildcard entry exactly when no
non-wildcard key is a suffix of the domain; and a subdomain resolves to its
registered parent's limits. -/
theorem C5_config_resolution (d : String) :
    (∃ c, getConfigIn DEFAULT_LIMITS d = some c)
    ∧ (∀ c, lookupS DEFAULT_LIMITS d = some c →
        getConfigIn DEFAULT_LIMITS d = some c)
    ∧ (lookupS DEFAULT_LIMITS d = none →
        (∃ k c, (k, c) ∈ DEFAULT_LIMITS ∧ k ≠ "*" ∧ endsWithS d k = true
           ∧ getConfigIn DEFAULT_LIMITS d = some c)
        ∨ ((∀ k c, (k, c) ∈ DEFAULT_LIMITS → k ≠ "*" → endsWithS d k = false)
           ∧ getConfigIn DEFAULT_LIMITS d = some starConfig))
    ∧ getConfig "library.municode.com" = getConfig "municode.com" := by
  refine ⟨getConfigIn_DEFAULT_total d, ?_, ?_, by decide⟩
  · intro c h
    unfold getConfigIn
    simp [h]
  · intro h
    cases h2 : findSuffixMatch DEFAULT_LIMITS d with
    | some c =>
      obtain ⟨k, hm, hne, he⟩ := findSuffixMatch_some _ _ _ h2
      exact Or.inl ⟨k, c, hm, hne, he, by unfold getConfigIn; simp [h, h2]⟩
    | none =>
      refine Or.inr ⟨findSuffixMatch_none _ _ h2, ?_⟩
      unfold getConfigIn
      simp [h, h2, lookupS_DEFAULT_star]

/-- Witness for C5 at concrete domains: an exact match and a no-match
fallback both resolve. -/
theorem C5_config_resolution_witness :
    getConfigIn DEFAULT_LIMITS "municode.com" = some municodeConfig
    ∧ ((∃ k c, (k, c) ∈ DEFAULT_LIMITS ∧ k ≠ "*"
          ∧ endsWithS "api.supabase.co" k = true
          ∧ getConfigIn DEFAULT_LIMITS "api.supabase.co" = some c)
       ∨ ((∀ k c, (k, c) ∈ DEFAULT_LIMITS → k ≠ "*"
            → endsWithS "api.supabase.co" k = false)
          ∧ getConfigIn DEFAULT_LIMITS "api.supabase.co" = some starConfig)) :=
  ⟨(C5_config_resolution "municode.com").2.1 municodeConfig (by decide),
   (C5_config_resolution "api.supabase.co").2.2.1 (by decide)⟩

/-
  Claim C10: the suffix match has no label-boundary check.
-/

/-- C10: every domain string that ends with the registered key
`municode.com` without being equal to it (including strings like
`evilmunicode.com` that are not dot-separated subdomains) resolves to the
`municode.com` config, not the wildcard default. -/
theorem C10_suffix_no_boundary (d : String)
    (h1 : endsWithS d "municode.com" = true) (h2 : d ≠ "municode.com") :
    getConfigIn DEFAULT_LIMITS d = some municodeConfig
    ∧ municodeConfig ≠ starConfig := by
  refine ⟨?_, by decide⟩
  have k1 : ("municode.com" : String) ≠ d := Ne.symm h2
  have k2 : ("supabase.co" : String) ≠ d := by
    intro he; rw [← he] at h1; exact absurd h1 (by decide)
  have k3 : ("gis.brevardfl.gov" : String) ≠ d := by
    intro he; rw [← he] at h1; exact absurd h1 (by decide)
  have k4 : ("bcpao.us" : String) ≠ d := by
    intro he; rw [← he] at h1; exact absurd h1 (by decide)
  have k5 : ("*" : String) ≠ d := by
    intro he; rw [← he] at h1; exact absurd h1 (by decide)
  have hlk : lookupS DEFAULT_LIMITS d = none := by
    simp [lookupS, DEFAULT_LIMITS, k1, k2, k3, k4, k5]
  unfold getConfigIn
  rw [hlk]
  simp only [DEFAULT_LIMITS, findSuffixMatch]
  rw [if_pos ⟨by decide, h1⟩]
  rfl

/-- Witness for C10 at the concrete domain `evilmunicode.com`. -/
theorem C10_suffix_no_boundary_witness :
    getConfigIn DEFAULT_LIMITS "evilmunicode.com" = some municodeConfig
    ∧ municodeConfig ≠ starConfig :=
  C10_suffix_no_boundary "evilmunicode.com" (by decide) (by decide)

/-
  Branch lemmas for `acquire` (claims C1-C4).
-/

theorem getBucket_request_counts (st : LimiterState) (d : String) (now : Rat) :
    (getBucket st d now).2.request_counts = st.request_counts := by
  unfold getBucket
  cases h : lookupS st.buckets d <;> simp [h]

theorem getBucket_cooldowns (st : LimiterState) (d : String) (now : Rat) :
    (getBucket st d now).2.cooldowns = st.cooldowns := by
  unfold getBucket
  cases h : lookupS st.buckets d <;> simp [h]

theorem checkCooldown_lookup_none (cooldowns : List (String × Rat)) (d : String)
    (now : Rat) (h : lookupS cooldowns d = none) :
    checkCooldown cooldowns d now = ((false, 0), cooldowns) := by
  unfold checkCooldown
  simp [h]

theorem checkCooldown_active (cooldowns : List (String × Rat)) (d : String)
    (now u : Rat) (h : lookupS cooldowns d = some u) (hlt : now < u) :
    checkCooldown cooldowns d now = ((true, (u - now).floor), cooldowns) := by
  unfold checkCooldown
  simp [h, hlt]

/-- With an active cooldown, `acquire` denies with the cooldown reason and
leaves the entire state unchanged (the gate fires before the bucket and the
window counters are touched). -/
theorem acquire_cooldown_active (st : LimiterState) (d : String) (now u : Rat)
    (h : lookupS st.cooldowns d = some u) (hlt : now < u) :
    acquire st d now = ((false, cooldownMsg d (u - now).floor), st) := by
  unfold acquire
  rw [checkCooldown_active st.cooldowns d now u h hlt]
  rfl

/-- Past an inactive cooldown gate, when the bucket consume fails, `acquire`
denies with the burst reason, stores the refilled bucket, sets the cooldown
to `now + cooldown_seconds`, and leaves the window counters untouched. -/
theorem acquire_burst_denied (st : LimiterState) (d : String) (now : Rat)
    (hcd : (checkCooldown st.cooldowns d now).1.1 = false)
    (hbk : ((getBucket { st with cooldowns := (checkCooldown st.cooldowns d now).2 } d now).1.consume now 1).1 = false) :
    acquire st d now =
      ((false, burstMsg d (getConfig d)),
       { buckets :=
           insertS (getBucket { st with cooldowns := (checkCooldown st.cooldowns d now).2 } d now).2.buckets d
             ((getBucket { st with cooldowns := (checkCooldown st.cooldowns d now).2 } d now).1.consume now 1).2,
         request_counts := st.request_counts,
         cooldowns :=
           insertS (checkCooldown st.cooldowns d now).2 d
             (now + ((getConfig d).cooldown_seconds : Rat)) }) := by
  unfold acquire
  simp only [hcd, Bool.false_eq_true, if_false]
  rw [if_pos hbk]
  simp [getBucket_request_counts, getBucket_cooldowns]

/-- Past an inactive cooldown gate, when the bucket consume succeeds,
`acquire` evaluates the window counters in minute, hour, day order: the
first violated window denies with its message without incrementing, and
when all pass, all three counters are incremented by one. -/
theorem acquire_burst_ok (st : LimiterState) (d : String) (now : Rat)
    (hcd : (checkCooldown st.cooldowns d now).1.1 = false)
    (hbk : ((getBucket { st with cooldowns := (checkCooldown st.cooldowns d now).2 } d now).1.consume now 1).1 = true) :
    acquire st d now =
      (let st1 : LimiterState := { st with cooldowns := (checkCooldown st.cooldowns d now).2 }
       let gb := getBucket st1 d now
       let st2 : LimiterState := { gb.2 with buckets := insertS gb.2.buckets d (gb.1.consume now 1).2 }
       let c := currentCounts st d now
       if (getConfig d).requests_per_minute ≤ c.minute then
         ((false, minuteMsg (getConfig d) d),
          { st2 with request_counts := insertS st2.request_counts d c })
       else if (getConfig d).requests_per_hour ≤ c.hour then
         ((false, hourMsg (getConfig d) d),
          { st2 with request_counts := insertS st2.request_counts d c })
       else if (getConfig d).requests_per_day ≤ c.day then
         ((false, dayMsg (getConfig d) d),
          { st2 with request_counts := insertS st2.request_counts d c })
       else
         ((true, "OK"),
          { st2 with request_counts := insertS st2.request_counts d c.inc })) := by
  have h1 : (getBucket { st with cooldowns := (checkCooldown st.cooldowns d now).2 } d now).2.request_counts
      = st.request_counts :=
    getBucket_request_counts _ d now
  unfold acquire
  simp only [hcd, Bool.false_eq_true, if_false]
  rw [if_neg (by rw [hbk]; simp)]
  unfold updateCounts
  simp only [currentCounts, h1]
  split_ifs <;> simp [insertS_insertS, h1]

/-
  Reason-string containment lemmas.
-/

theorem strContains_burstMsg (d : String) (cfg : RateLimitConfig) :
    strContains (burstMsg d cfg) "Burst limit" = true := by
  unfold burstMsg
  apply strContains_append_right
  apply strContains_append_right
  apply strContains_append_right
  apply strContains_append_right
  decide

theorem strContains_cooldownMsg (d : String) (r : Int) :
    strContains (cooldownMsg d r) "cooldown" = true := by
  unfold cooldownMsg
  apply strContains_append_right
  apply strContains_append_right
  apply strContains_append_left
  decide

theorem consume_true_eq (b : TokenBucket) (now : Rat) (n : Nat)
    (h : (b.consume now n).1 = true) :
    (b.consume now n).2 = { b.refill now with tokens := (b.refill now).tokens - (n : Rat) } := by
  unfold TokenBucket.consume at h ⊢
  by_cases hn : (n : Rat) ≤ (b.refill now).tokens
  · simp [hn]
  · simp [hn] at h

/-
  Claim C3 (amended): window checks in minute, hour, day order.
-/

/-- C3 (amended): in an `acquire` call that passes the cooldown and burst
gates, the window counters are compared against the config ceilings in
minute, hour, day order; the first violated window denies with the message
of that window (which includes the numeric limit, e.g.
`Minute limit (30/min) exceeded for <domain>`) without incrementing any of
the three counters, and when all three pass, all three counters are
incremented by exactly one and the call returns `(true, "OK")`. -/
theorem C3_window_order (st : LimiterState) (d : String) (now : Rat)
    (hcd : (checkCooldown st.cooldowns d now).1.1 = false)
    (hbk : ((getBucket { st with cooldowns := (checkCooldown st.cooldowns d now).2 } d now).1.consume now 1).1 = true) :
    (acquire st d now).1 =
      (if (getConfig d).requests_per_minute ≤ (currentCounts st d now).minute then
         (false, minuteMsg (getConfig d) d)
       else if (getConfig d).requests_per_hour ≤ (currentCounts st d now).hour then
         (false, hourMsg (getConfig d) d)
       else if (getConfig d).requests_per_day ≤ (currentCounts st d now).day then
         (false, dayMsg (getConfig d) d)
       else (true, "OK"))
    ∧ lookupS (acquire st d now).2.request_counts d =
      some (if (acquire st d now).1.1 then (currentCounts st d now).inc
            else currentCounts st d now) := by
  simp only [acquire_burst_ok st d now hcd hbk]
  constructor
  · split_ifs <;> rfl
  · split_ifs <;> simp_all [lookupS_insertS_self]

/-- Witness for C3 at a concrete state: all windows pass from a fresh
domain, and the counters advance by one. -/
theorem C3_window_order_witness :
    (acquire initState "x" 0).1 =
      (if (getConfig "x").requests_per_minute ≤ (currentCounts initState "x" 0).minute then
         (false, minuteMsg (getConfig "x") "x")
       else if (getConfig "x").requests_per_hour ≤ (currentCounts initState "x" 0).hour then
         (false, hourMsg (getConfig "x") "x")
       else if (getConfig "x").requests_per_day ≤ (currentCounts initState "x" 0).day then
         (false, dayMsg (getConfig "x") "x")
       else (true, "OK"))
    ∧ lookupS (acquire initState "x" 0).2.request_counts "x" =
      some (if (acquire initState "x" 0).1.1 then (currentCounts initState "x" 0).inc
            else currentCounts initState "x" 0) :=
  C3_window_order initState "x" 0 (by rfl)
    (by have hg : getConfig "x" = starConfig := by decide
        norm_num [getBucket, checkCooldown, lookupS, initState, hg, starConfig,
          TokenBucket.consume, TokenBucket.refill, TokenBucket.init, ratMin])

/-
  Claim C4: a window denial does not refund the consumed token and sets no
  cooldown.
-/

/-- C4: when an `acquire` call passes the cooldown and burst gates but is
denied by a window-counter check, the token consumed earlier in the call is
not refunded — the stored bucket holds exactly one token fewer than the
refilled pre-call bucket — and the denial adds no cooldown entry. -/
theorem C4_no_refund (st : LimiterState) (d : String) (now : Rat)
    (hcd : (checkCooldown st.cooldowns d now).1.1 = false)
    (hbk : ((getBucket { st with cooldowns := (checkCooldown st.cooldowns d now).2 } d now).1.consume now 1).1 = true)
    (hdenied : (acquire st d now).1.1 = false) :
    (∃ b : TokenBucket,
       lookupS (acquire st d now).2.buckets d = some b
       ∧ b.tokens =
           ((getBucket { st with cooldowns := (checkCooldown st.cooldowns d now).2 } d now).1.refill now).tokens - 1)
    ∧ lookupS (acquire st d now).2.cooldowns d
        = lookupS (checkCooldown st.cooldowns d now).2 d := by
  have hcons := consume_true_eq
    (getBucket { st with cooldowns := (checkCooldown st.cooldowns d now).2 } d now).1 now 1 hbk
  simp only [acquire_burst_ok st d now hcd hbk] at hdenied ⊢
  have hgcd : (getBucket { st with cooldowns := (checkCooldown st.cooldowns d now).2 } d now).2.cooldowns
      = (checkCooldown st.cooldowns d now).2 := getBucket_cooldowns _ d now
  split_ifs at hdenied ⊢
  · exact ⟨⟨_, lookupS_insertS_self _ _ _, by rw [hcons]; push_cast; ring⟩, by rw [hgcd]⟩
  · exact ⟨⟨_, lookupS_insertS_self _ _ _, by rw [hcons]; push_cast; ring⟩, by rw [hgcd]⟩
  · exact ⟨⟨_, lookupS_insertS_self _ _ _, by rw [hcons]; push_cast; ring⟩, by rw [hgcd]⟩


/-- Witness for C4 at a concrete state whose minute counter is at its
ceiling. -/
theorem C4_no_refund_witness :
    (∃ b : TokenBucket,
       lookupS (acquire c4State "x" 0).2.buckets "x" = some b
       ∧ b.tokens =
           ((getBucket { c4State with
               cooldowns := (checkCooldown c4State.cooldowns "x" 0).2 } "x" 0).1.refill 0).tokens - 1)
    ∧ lookupS (acquire c4State "x" 0).2.cooldowns "x"
        = lookupS (checkCooldown c4State.cooldowns "x" 0).2 "x" :=
  C4_no_refund c4State "x" 0 (by rfl)
    (by have hg : getConfig "x" = starConfig := by decide
        norm_num [getBucket, checkCooldown, lookupS, c4State, hg, starConfig,
          TokenBucket.consume, TokenBucket.refill, TokenBucket.init, ratMin])
    (by have hg : getConfig "x" = starConfig := by decide
        norm_num [acquire, getBucket, checkCooldown, lookupS, c4State,
          TokenBucket.consume, TokenBucket.refill, TokenBucket.init, ratMin,
          updateCounts, currentCounts, Counts.lazyReset, hg, starConfig])

/-
  Claim C2: burst denial starts a cooldown which rejects subsequent calls
  without touching bucket or counters.
-/

/-- C2: after an `acquire` call denied by the burst check on a domain,
every subsequent `acquire` on that domain strictly before
`cooldown_seconds` have elapsed is denied with a reason containing
`cooldown`, and that denied call leaves the whole state unchanged — the
cooldown gate rejects before the bucket or the window counters are
consulted, so no token is consumed. -/
theorem C2_cooldown_after_burst (st : LimiterState) (d : String) (t0 t : Rat)
    (hcd : (checkCooldown st.cooldowns d t0).1.1 = false)
    (hbk : ((getBucket { st with cooldowns := (checkCooldown st.cooldowns d t0).2 } d t0).1.consume t0 1).1 = false)
    (_ht0 : t0 ≤ t) (ht : t < t0 + ((getConfig d).cooldown_seconds : Rat)) :
    (acquire st d t0).1.1 = false
    ∧ strContains (acquire st d t0).1.2 "Burst limit" = true
    ∧ acquire (acquire st d t0).2 d t
        = ((false, cooldownMsg d ((t0 + ((getConfig d).cooldown_seconds : Rat)) - t).floor),
           (acquire st d t0).2)
    ∧ strContains (cooldownMsg d ((t0 + ((getConfig d).cooldown_seconds : Rat)) - t).floor) "cooldown" = true := by
  rw [acquire_burst_denied st d t0 hcd hbk]
  refine ⟨rfl, strContains_burstMsg d (getConfig d), ?_, strContains_cooldownMsg d _⟩
  exact acquire_cooldown_active _ d t (t0 + ((getConfig d).cooldown_seconds : Rat))
    (lookupS_insertS_self _ _ _) ht


/-- Witness for C2: a concrete empty-bucket state, burst denial at time 0,
then a denial 30 seconds into the cooldown. -/
theorem C2_cooldown_after_burst_witness :
    (acquire c2State "x" 0).1.1 = false
    ∧ strContains (acquire c2State "x" 0).1.2 "Burst limit" = true
    ∧ acquire (acquire c2State "x" 0).2 "x" 30
        = ((false, cooldownMsg "x" ((0 + ((getConfig "x").cooldown_seconds : Rat)) - 30).floor),
           (acquire c2State "x" 0).2)
    ∧ strContains (cooldownMsg "x" ((0 + ((getConfig "x").cooldown_seconds : Rat)) - 30).floor) "cooldown" = true :=
  C2_cooldown_after_burst c2State "x" 0 30 (by rfl)
    (by norm_num [getBucket, checkCooldown, lookupS, c2State, TokenBucket.consume,
          TokenBucket.refill, ratMin])
    (by norm_num)
    (by have hg : getConfig "x" = starConfig := by decide
        rw [hg]
        norm_num [starConfig])
/-
  Claim C1: burst exhaustion from a fresh domain.
-/

theorem ratMin_eq_right (a b : Rat) (h : b ≤ a) : ratMin a b = b := by
  rw [ratMin_eq_min]
  exact min_eq_right h

/-- A refill with zero elapsed time and an in-range token count is the
identity. -/
theorem refill_self (b : TokenBucket) (now : Rat) (hlr : b.last_refill = now)
    (htc : b.tokens ≤ (b.capacity : Rat)) : b.refill now = b := by
  obtain ⟨cap, rate, tk, lr⟩ := b
  simp only at hlr htc
  subst hlr
  simp [TokenBucket.refill, ratMin_eq_right _ _ htc]

/-- A lazy reset whose three window-start fields are at the current clock
reading changes nothing. -/
theorem lazyReset_self (c : Counts) (now : Rat) (h1 : c.last_reset_minute = now)
    (h2 : c.last_reset_hour = now) (h3 : c.last_reset_day = now) :
    c.lazyReset now = c := by
  obtain ⟨m, h, dy, rm, rh, rd⟩ := c
  simp only at h1 h2 h3
  subst h1; subst h2; subst h3
  norm_num [Counts.lazyReset]

/-- `acquire` on a domain whose bucket entry has zero elapsed time, at least
one token, and in-window counters at the current clock reading: full
admission, token decremented, counters incremented. -/
theorem acquire_ok_generic (st : LimiterState) (d : String) (now : Rat)
    (b : TokenBucket) (c : Counts)
    (hcd : lookupS st.cooldowns d = none)
    (hbk : lookupS st.buckets d = some b)
    (hct : lookupS st.request_counts d = some c)
    (hlr : b.last_refill = now)
    (htk : 1 ≤ b.tokens) (htc : b.tokens ≤ (b.capacity : Rat))
    (hm : c.minute < (getConfig d).requests_per_minute)
    (hh : c.hour < (getConfig d).requests_per_hour)
    (hd : c.day < (getConfig d).requests_per_day)
    (hrm : c.last_reset_minute = now) (hrh : c.last_reset_hour = now)
    (hrd : c.last_reset_day = now) :
    acquire st d now =
      ((true, "OK"),
       { buckets := insertS st.buckets d { b with tokens := b.tokens - 1 },
         request_counts := insertS st.request_counts d c.inc,
         cooldowns := st.cooldowns }) := by
  have hccd := checkCooldown_lookup_none st.cooldowns d now hcd
  have hst1 : ({ st with cooldowns := (checkCooldown st.cooldowns d now).2 } : LimiterState) = st := by
    rw [hccd]
  have hrefill : b.refill now = b := refill_self b now hlr htc
  have hcons : b.consume now 1 = (true, { b with tokens := b.tokens - 1 }) := by
    unfold TokenBucket.consume
    rw [hrefill]
    rw [if_pos (by simpa using htk)]
    norm_num
  have hgb : getBucket st d now = (b, st) := by
    unfold getBucket
    rw [hbk]
  have hcc : currentCounts st d now = c := by
    unfold currentCounts
    rw [hct]
    exact lazyReset_self c now hrm hrh hrd
  rw [acquire_burst_ok st d now (by rw [hccd]) (by rw [hst1, hgb, hcons])]
  simp only [hst1, hgb, hcons, hcc]
  rw [if_neg (Nat.not_le.mpr hm), if_neg (Nat.not_le.mpr hh), if_neg (Nat.not_le.mpr hd)]

/-- `acquire` on a domain whose bucket entry has zero elapsed time and
fewer than one token: burst denial, cooldown set, counters untouched. -/
theorem acquire_burst_fail_generic (st : LimiterState) (d : String) (now : Rat)
    (b : TokenBucket)
    (hcd : lookupS st.cooldowns d = none)
    (hbk : lookupS st.buckets d = some b)
    (hlr : b.last_refill = now)
    (htk : b.tokens < 1) (htc : b.tokens ≤ (b.capacity : Rat)) :
    acquire st d now =
      ((false, burstMsg d (getConfig d)),
       { buckets := insertS st.buckets d b,
         request_counts := st.request_counts,
         cooldowns := insertS st.cooldowns d
           (now + ((getConfig d).cooldown_seconds : Rat)) }) := by
  have hccd := checkCooldown_lookup_none st.cooldowns d now hcd
  have hst1 : ({ st with cooldowns := (checkCooldown st.cooldowns d now).2 } : LimiterState) = st := by
    rw [hccd]
  have hrefill : b.refill now = b := refill_self b now hlr htc
  have hcons : b.consume now 1 = (false, b) := by
    unfold TokenBucket.consume
    rw [hrefill]
    rw [if_neg (by push_cast; exact not_le.mpr htk)]
  have hgb : getBucket st d now = (b, st) := by
    unfold getBucket
    rw [hbk]
  rw [acquire_burst_denied st d now (by rw [hccd]) (by rw [hst1, hgb, hcons])]
  simp only [hst1, hgb, hcons, hccd]

/-- `acquire` on a domain with no prior state and a positive burst limit:
full admission through a freshly created bucket and counter entry. -/
theorem acquire_fresh_ok (st : LimiterState) (d : String) (now : Rat)
    (hb : lookupS st.buckets d = none) (hc : lookupS st.request_counts d = none)
    (hcd : lookupS st.cooldowns d = none) :
    acquire st d now =
      ((true, "OK"),
       { buckets := insertS st.buckets d
           { capacity := (getConfig d).burst_limit,
             refill_rate := ((getConfig d).requests_per_minute : Rat) / 60,
             tokens := ((getConfig d).burst_limit : Rat) - 1,
             last_refill := now },
         request_counts := insertS st.request_counts d (Counts.fresh now).inc,
         cooldowns := st.cooldowns }) := by
  have hN := (getConfig_facts d).1
  have hccd := checkCooldown_lookup_none st.cooldowns d now hcd
  have hst1 : ({ st with cooldowns := (checkCooldown st.cooldowns d now).2 } : LimiterState) = st := by
    rw [hccd]
  have hb0 : TokenBucket.init (getConfig d).burst_limit
      (((getConfig d).requests_per_minute : Rat) / 60) now =
      { capacity := (getConfig d).burst_limit,
        refill_rate := ((getConfig d).requests_per_minute : Rat) / 60,
        tokens := ((getConfig d).burst_limit : Rat), last_refill := now } := rfl
  have hrefill : (TokenBucket.init (getConfig d).burst_limit
      (((getConfig d).requests_per_minute : Rat) / 60) now).refill now =
      TokenBucket.init (getConfig d).burst_limit
        (((getConfig d).requests_per_minute : Rat) / 60) now :=
    refill_self _ now rfl (le_refl _)
  have hcons : (TokenBucket.init (getConfig d).burst_limit
      (((getConfig d).requests_per_minute : Rat) / 60) now).consume now 1 =
      (true, { capacity := (getConfig d).burst_limit,
               refill_rate := ((getConfig d).requests_per_minute : Rat) / 60,
               tokens := ((getConfig d).burst_limit : Rat) - 1,
               last_refill := now }) := by
    unfold TokenBucket.consume
    rw [hrefill]
    rw [if_pos (by simp only [TokenBucket.init]; exact_mod_cast hN)]
    norm_num [TokenBucket.init]
  have hgb : getBucket st d now = (TokenBucket.init (getConfig d).burst_limit (((getConfig d).requests_per_minute : Rat) / 60) now, { st with buckets := insertS st.buckets d (TokenBucket.init (getConfig d).burst_limit (((getConfig d).requests_per_minute : Rat) / 60) now) }) := by
    unfold getBucket
    rw [hb]
  have hcc : currentCounts st d now = Counts.fresh now := by
    unfold currentCounts
    rw [hc]
    exact lazyReset_self _ now rfl rfl rfl
  have hfacts := getConfig_facts d
  have hrpm : (Counts.fresh now).minute < (getConfig d).requests_per_minute :=
    lt_of_lt_of_le Nat.zero_lt_one (le_trans hN hfacts.2.1)
  have hrph : (Counts.fresh now).hour < (getConfig d).requests_per_hour :=
    lt_of_lt_of_le Nat.zero_lt_one (le_trans hN hfacts.2.2.1)
  have hrpd : (Counts.fresh now).day < (getConfig d).requests_per_day :=
    lt_of_lt_of_le Nat.zero_lt_one (le_trans hN hfacts.2.2.2.1)
  rw [acquire_burst_ok st d now (by rw [hccd]) (by rw [hst1, hgb]; rw [hcons])]
  simp only [hst1, hgb, hcons, hcc]
  rw [if_neg (Nat.not_le.mpr hrpm), if_neg (Nat.not_le.mpr hrph),
      if_neg (Nat.not_le.mpr hrpd)]
  simp [insertS_insertS]





theorem acquire_c1State_ok (st : LimiterState) (d : String) (now : Rat)
    (hcd : lookupS st.cooldowns d = none)
    (k : Nat) (hkN : k + 1 ≤ (getConfig d).burst_limit) :
    acquire (c1State st d now k) d now = ((true, "OK"), c1State st d now (k + 1)) := by
  have hfacts := getConfig_facts d
  have hcast : (k : Rat) + 1 ≤ ((getConfig d).burst_limit : Rat) := by
    exact_mod_cast hkN
  have htk : (1 : Rat) ≤ (c1Bucket d now k).tokens := by
    unfold c1Bucket
    simp only
    linarith
  have htc : (c1Bucket d now k).tokens ≤ ((c1Bucket d now k).capacity : Rat) := by
    unfold c1Bucket
    simp only
    have : (0 : Rat) ≤ (k : Rat) := Nat.cast_nonneg k
    linarith
  have hm : (c1Counts now k).minute < (getConfig d).requests_per_minute := by
    have : k + 1 ≤ (getConfig d).requests_per_minute := le_trans hkN hfacts.2.1
    simp only [c1Counts]
    omega
  have hh : (c1Counts now k).hour < (getConfig d).requests_per_hour := by
    have : k + 1 ≤ (getConfig d).requests_per_hour := le_trans hkN hfacts.2.2.1
    simp only [c1Counts]
    omega
  have hd : (c1Counts now k).day < (getConfig d).requests_per_day := by
    have : k + 1 ≤ (getConfig d).requests_per_day := le_trans hkN hfacts.2.2.2.1
    simp only [c1Counts]
    omega
  rw [acquire_ok_generic (c1State st d now k) d now (c1Bucket d now k) (c1Counts now k)
      (by simp [c1State, hcd]) (by simp [c1State, lookupS_insertS_self])
      (by simp [c1State, lookupS_insertS_self]) rfl htk htc hm hh hd rfl rfl rfl]
  have htok : (c1Bucket d now k).tokens - 1 = (c1Bucket d now (k + 1)).tokens := by
    simp only [c1Bucket]
    push_cast
    ring
  have hbtok : ({ c1Bucket d now k with tokens := (c1Bucket d now k).tokens - 1 } : TokenBucket)
      = c1Bucket d now (k + 1) := by
    rw [htok]
    rfl
  have hcinc : (c1Counts now k).inc = c1Counts now (k + 1) := rfl
  simp only [c1State, insertS_insertS, hbtok, hcinc]

theorem stateAfter_c1 (st : LimiterState) (d : String) (now : Rat)
    (hb : lookupS st.buckets d = none) (hc : lookupS st.request_counts d = none)
    (hcd : lookupS st.cooldowns d = none) :
    ∀ k, 1 ≤ k → k ≤ (getConfig d).burst_limit →
      stateAfter st d now k = c1State st d now k := by
  intro k
  induction k with
  | zero => intro h1 _; exact absurd h1 (by omega)
  | succ k ih =>
    intro _ hle
    rcases Nat.eq_zero_or_pos k with hk0 | hkpos
    · subst hk0
      show (acquire (stateAfter st d now 0) d now).2 = _
      rw [show stateAfter st d now 0 = st from rfl]
      rw [acquire_fresh_ok st d now hb hc hcd]
      simp only [c1State, c1Bucket, c1Counts, Counts.fresh, Counts.inc]
      norm_num
    · have hkN : k + 1 ≤ (getConfig d).burst_limit := hle
      show (acquire (stateAfter st d now k) d now).2 = _
      rw [ih hkpos (by omega)]
      rw [acquire_c1State_ok st d now hcd k hkN]

/-- C1: for every domain (its resolved config having burst limit `N`) with
no prior limiter state for that domain, of `N + 1` `acquire` calls with
zero elapsed time between them, exactly the first `N` return
`(true, "OK")` and the `(N+1)`-st returns false with a reason containing
`Burst limit`. -/
theorem C1_burst_exhaustion (st : LimiterState) (d : String) (now : Rat)
    (hb : lookupS st.buckets d = none) (hc : lookupS st.request_counts d = none)
    (hcd : lookupS st.cooldowns d = none) :
    (∀ k, k < (getConfig d).burst_limit →
       (acquire (stateAfter st d now k) d now).1 = (true, "OK"))
    ∧ (acquire (stateAfter st d now (getConfig d).burst_limit) d now).1
        = (false, burstMsg d (getConfig d))
    ∧ strContains (burstMsg d (getConfig d)) "Burst limit" = true := by
  have hN := (getConfig_facts d).1
  refine ⟨?_, ?_, strContains_burstMsg d (getConfig d)⟩
  · intro k hk
    rcases Nat.eq_zero_or_pos k with hk0 | hkpos
    · subst hk0
      rw [show stateAfter st d now 0 = st from rfl]
      rw [acquire_fresh_ok st d now hb hc hcd]
    · rw [stateAfter_c1 st d now hb hc hcd k hkpos (le_of_lt hk)]
      rw [acquire_c1State_ok st d now hcd k hk]
  · rw [stateAfter_c1 st d now hb hc hcd (getConfig d).burst_limit hN (le_refl _)]
    have htk : (c1Bucket d now (getConfig d).burst_limit).tokens < 1 := by
      simp only [c1Bucket]
      norm_num
    have htc : (c1Bucket d now (getConfig d).burst_limit).tokens
        ≤ ((c1Bucket d now (getConfig d).burst_limit).capacity : Rat) := by
      simp only [c1Bucket]
      have : (0 : Rat) ≤ ((getConfig d).burst_limit : Rat) := Nat.cast_nonneg _
      linarith
    rw [acquire_burst_fail_generic (c1State st d now (getConfig d).burst_limit) d now
        (c1Bucket d now (getConfig d).burst_limit)
        (by simp [c1State, hcd]) (by simp [c1State, lookupS_insertS_self]) rfl htk htc]

/-- Witness for C1 at the empty initial state and the concrete domain
`bcpao.us` (burst limit 5). -/
theorem C1_burst_exhaustion_witness :
    (∀ k, k < (getConfig "bcpao.us").burst_limit →
       (acquire (stateAfter initState "bcpao.us" 0 k) "bcpao.us" 0).1 = (true, "OK"))
    ∧ (acquire (stateAfter initState "bcpao.us" 0 (getConfig "bcpao.us").burst_limit) "bcpao.us" 0).1
        = (false, burstMsg "bcpao.us" (getConfig "bcpao.us"))
    ∧ strContains (burstMsg "bcpao.us" (getConfig "bcpao.us")) "Burst limit" = true :=
  C1_burst_exhaustion initState "bcpao.us" 0 (by rfl) (by rfl) (by rfl)

/-
  Claim C3 counterexample: the actual denial message includes the numeric
  limit, unlike the literal template of the claim.
-/


/-- Counterexample for C3 as stated: the minute denial reason produced by
the code is `Minute limit (30/min) exceeded for municode.com`, which is not
the claimed literal `<window> limit exceeded for <domain>` instantiated at
this window and domain. -/
theorem C3_counterexample :
    (acquire c3CexState "municode.com" 0).1
      = (false, "Minute limit (30/min) exceeded for municode.com")
    ∧ "Minute limit (30/min) exceeded for municode.com"
      ≠ "Minute limit exceeded for municode.com"
    ∧ "Minute limit (30/min) exceeded for municode.com"
      ≠ "minute limit exceeded for municode.com" := by
  refine ⟨?_, by decide, by decide⟩
  have hg : getConfig "municode.com" = municodeConfig := by decide
  have hcd : (checkCooldown c3CexState.cooldowns "municode.com" 0).1.1 = false := rfl
  have hbk : ((getBucket { c3CexState with
      cooldowns := (checkCooldown c3CexState.cooldowns "municode.com" 0).2 } "municode.com" 0).1.consume 0 1).1 = true := by
    norm_num [getBucket, checkCooldown, lookupS, c3CexState, TokenBucket.consume,
      TokenBucket.refill, ratMin]
  have hcc : currentCounts c3CexState "municode.com" 0 =
      { minute := 30, hour := 30, day := 30, last_reset_minute := 0,
        last_reset_hour := 0, last_reset_day := 0 } := by
    norm_num [currentCounts, c3CexState, lookupS, Counts.lazyReset]
  simp only [acquire_burst_ok c3CexState "municode.com" 0 hcd hbk, hcc, hg]
  rw [if_pos (by norm_num [municodeConfig])]
  decide

/-
  Claim C7: `get_status` state effects.
-/



theorem refill_refill (b : TokenBucket) (now : Rat) :
    (b.refill now).refill now = b.refill now :=
  refill_self _ now rfl (refill_tokens_le b now)

theorem freshBucket_refill (d : String) (now : Rat) :
    (freshBucket d now).refill now = freshBucket d now :=
  refill_self _ now rfl (le_refl _)

theorem lazyReset_idem (c : Counts) (now : Rat) :
    (c.lazyReset now).lazyReset now = c.lazyReset now := by
  obtain ⟨m, h, dy, rm, rh, rd⟩ := c
  unfold Counts.lazyReset
  by_cases h1 : (60 : Rat) ≤ now - rm <;> by_cases h2 : (3600 : Rat) ≤ now - rh <;>
    by_cases h3 : (86400 : Rat) ≤ now - rd <;>
      simp [h1, h2, h3]

theorem fresh_lazyReset (now : Rat) :
    (Counts.fresh now).lazyReset now = Counts.fresh now :=
  lazyReset_self _ now rfl rfl rfl

theorem getBucket_buckets_ne (st : LimiterState) (e d : String) (now : Rat)
    (h : d ≠ e) :
    lookupS (getBucket st e now).2.buckets d = lookupS st.buckets d := by
  unfold getBucket
  cases hl : lookupS st.buckets e with
  | some b => rfl
  | none => simp [lookupS_insertS_ne _ e d _ h]

theorem statusStep_state (now : Rat) (acc : List (String × DomainStatus) × LimiterState)
    (e : String) (he : e ≠ "*") :
    (statusStep now acc e).2 =
      { buckets := insertS (getBucket (updateCounts acc.2 e now).2 e now).2.buckets e
          ((getBucket (updateCounts acc.2 e now).2 e now).1.refill now),
        request_counts := insertS acc.2.request_counts e (currentCounts acc.2 e now),
        cooldowns := (checkCooldown acc.2.cooldowns e now).2 } := by
  unfold statusStep
  rw [if_neg he]
  simp only [TokenBucket.available_tokens]
  rw [getBucket_request_counts, getBucket_cooldowns]
  rfl

theorem statusStep_frame (st0 : LimiterState) (now : Rat)
    (acc : List (String × DomainStatus) × LimiterState) (e : String)
    (hR : StatusFrame st0 acc.2 now) : StatusFrame st0 (statusStep now acc e).2 now := by
  by_cases he : e = "*"
  · unfold statusStep
    rw [if_pos he]
    exact hR
  · obtain ⟨R1, R2, R3, R4, R5, R6⟩ := hR
    rw [statusStep_state now acc e he]
    have hucb : (updateCounts acc.2 e now).2.buckets = acc.2.buckets := rfl
    refine ⟨?_, ?_, ?_, ?_, ?_, ?_⟩
    · intro d u hu
      simp only [checkCooldown] at hu
      cases hl : lookupS acc.2.cooldowns e with
      | none => simp only [hl] at hu; exact R1 d u hu
      | some u0 =>
        by_cases hlt : now < u0
        · simp only [hl, if_pos hlt] at hu; exact R1 d u hu
        · simp only [hl, if_neg hlt] at hu
          by_cases hde : d = e
          · subst hde
            rw [lookupS_eraseS_self _ _ R2] at hu
            exact absurd hu (by simp)
          · rw [lookupS_eraseS_ne _ e d hde] at hu
            exact R1 d u hu
    · simp only [checkCooldown]
      cases hl : lookupS acc.2.cooldowns e with
      | none => simp only [hl]; exact R2
      | some u0 =>
        by_cases hlt : now < u0
        · simp only [hl, if_pos hlt]; exact R2
        · simp only [hl, if_neg hlt]
          exact R2.sublist (List.Sublist.map _ (eraseS_sublist _ _))
    · intro d b hb
      by_cases hde : d = e
      · subst hde
        rw [lookupS_insertS_self] at hb
        have hb' := Option.some.inj hb
        unfold getBucket at hb'
        rw [hucb] at hb'
        cases hl : lookupS acc.2.buckets d with
        | some bb =>
          rw [hl] at hb'
          rcases R3 d bb hl with ⟨b0, hb0, hor⟩ | ⟨hn0, hfr⟩
          · refine Or.inl ⟨b0, hb0, Or.inr ?_⟩
            rcases hor with hbb | hbb <;> rw [← hb', hbb]
            exact (refill_refill b0 now).symm ▸ rfl
          · refine Or.inr ⟨hn0, ?_⟩
            rw [← hb', hfr, freshBucket_refill]
        | none =>
          rw [hl] at hb'
          refine Or.inr ⟨R4 d hl, ?_⟩
          rw [← hb']
          exact freshBucket_refill d now
      · rw [lookupS_insertS_ne _ e d _ hde, getBucket_buckets_ne _ e d now hde, hucb] at hb
        exact R3 d b hb
    · intro d hn
      by_cases hde : d = e
      · subst hde
        rw [lookupS_insertS_self] at hn
        exact absurd hn (by simp)
      · rw [lookupS_insertS_ne _ e d _ hde, getBucket_buckets_ne _ e d now hde, hucb] at hn
        exact R4 d hn
    · intro d c hc
      by_cases hde : d = e
      · subst hde
        rw [lookupS_insertS_self] at hc
        have hc' := Option.some.inj hc
        unfold currentCounts at hc'
        cases hl : lookupS acc.2.request_counts d with
        | some c0' =>
          rw [hl] at hc'
          simp only [Option.getD_some] at hc'
          rcases R5 d c0' hl with ⟨c0, hc0, hor⟩ | ⟨hn0, hfr⟩
          · refine Or.inl ⟨c0, hc0, Or.inr ?_⟩
            rcases hor with hcc | hcc <;> rw [← hc', hcc]
            exact (lazyReset_idem c0 now).symm ▸ rfl
          · refine Or.inr ⟨hn0, ?_⟩
            rw [← hc', hfr, fresh_lazyReset]
        | none =>
          rw [hl] at hc'
          simp only [Option.getD_none] at hc'
          refine Or.inr ⟨R6 d hl, ?_⟩
          rw [← hc', fresh_lazyReset]
      · rw [lookupS_insertS_ne _ e d _ hde] at hc
        exact R5 d c hc
    · intro d hn
      by_cases hde : d = e
      · subst hde
        rw [lookupS_insertS_self] at hn
        exact absurd hn (by simp)
      · rw [lookupS_insertS_ne _ e d _ hde] at hn
        exact R6 d hn

theorem foldl_statusStep_frame (st0 : LimiterState) (now : Rat) :
    ∀ (l : List String) (acc : List (String × DomainStatus) × LimiterState),
      StatusFrame st0 acc.2 now →
      StatusFrame st0 ((l.foldl (statusStep now) acc).2) now := by
  intro l
  induction l with
  | nil => exact fun acc h => h
  | cons e rest ih =>
    intro acc h
    exact ih _ (statusStep_frame st0 now acc e h)

/-- C7 (amended): `get_status` is a snapshot whose only state effects are
the defined lazy ones: it adds no cooldown entries (at most lazily deletes
expired ones), changes no existing bucket except by the elapsed-time
refill, changes no existing counter entry except by the lazy window reset,
and lazily creates only fresh full-capacity buckets and fresh zero counter
entries for domains that had none. -/
theorem C7_status_frame (st : LimiterState) (now : Rat)
    (hnd : (st.cooldowns.map Prod.fst).Nodup) :
    StatusFrame st (get_status st now).2 now := by
  unfold get_status
  refine foldl_statusStep_frame st now (statusDomains st) ([], st) ?_
  exact ⟨fun d u h => h, hnd,
    fun d b h => Or.inl ⟨b, h, Or.inl rfl⟩, fun d h => h,
    fun d c h => Or.inl ⟨c, h, Or.inl rfl⟩, fun d h => h⟩

/-- Witness for C7 (amended) at a concrete state with one bucket, one
counter entry and no cooldowns. -/
theorem C7_status_frame_witness :
    StatusFrame c3CexState (get_status c3CexState 0).2 0 :=
  C7_status_frame c3CexState 0 (by simp [c3CexState])

theorem statusStep_bucket_self (now : Rat)
    (acc : List (String × DomainStatus) × LimiterState) (d : String)
    (hd : d ≠ "*") :
    lookupS ((statusStep now acc d).2).buckets d ≠ none := by
  rw [statusStep_state now acc d hd]
  simp [lookupS_insertS_self]

theorem statusStep_bucket_preserved (now : Rat)
    (acc : List (String × DomainStatus) × LimiterState) (d e : String)
    (h : lookupS acc.2.buckets d ≠ none) :
    lookupS ((statusStep now acc e).2).buckets d ≠ none := by
  by_cases he : e = "*"
  · unfold statusStep
    rw [if_pos he]
    exact h
  · rw [statusStep_state now acc e he]
    by_cases hde : d = e
    · subst hde
      simp [lookupS_insertS_self]
    · rw [lookupS_insertS_ne _ e d _ hde, getBucket_buckets_ne _ e d now hde]
      exact h

theorem foldl_statusStep_bucket_preserved (now : Rat) :
    ∀ (l : List String) (acc : List (String × DomainStatus) × LimiterState)
      (d : String), lookupS acc.2.buckets d ≠ none →
      lookupS ((l.foldl (statusStep now) acc).2).buckets d ≠ none := by
  intro l
  induction l with
  | nil => exact fun acc d h => h
  | cons e rest ih =>
    intro acc d h
    exact ih _ d (statusStep_bucket_preserved now acc d e h)

theorem foldl_statusStep_bucket (now : Rat) :
    ∀ (l : List String) (acc : List (String × DomainStatus) × LimiterState)
      (d : String), d ≠ "*" → d ∈ l →
      lookupS ((l.foldl (statusStep now) acc).2).buckets d ≠ none := by
  intro l
  induction l with
  | nil => intro acc d _ h; exact absurd h (List.not_mem_nil d)
  | cons e rest ih =>
    intro acc d hd hmem
    rcases List.mem_cons.mp hmem with heq | hmem'
    · subst heq
      exact foldl_statusStep_bucket_preserved now rest _ d
        (statusStep_bucket_self now acc d hd)
    · exact ih _ d hd hmem'

/-- Counterexample for C7 as stated: from the empty initial state,
`get_status` creates a bucket for the registry domain `municode.com`, so it
is not free of bucket-creating side effects. -/
theorem C7_counterexample :
    lookupS initState.buckets "municode.com" = none
    ∧ lookupS (get_status initState 0).2.buckets "municode.com" ≠ none := by
  refine ⟨rfl, ?_⟩
  unfold get_status
  exact foldl_statusStep_bucket 0 (statusDomains initState) ([], initState)
    "municode.com" (by decide) (by decide)

end ZonewiseLobster
